import Mathlib

/-!
Verification development for the campus access-control repository.

The definitions below are a shallow embedding of the Python sources:

* `access_control_system.py` — the verification matcher
  (`match_vehicle_and_id`, `check_pending_verification`,
  `process_vehicle_detection`, `process_id_card_detection`);
* `offline_id_card_recognizer.py` — the field extractor
  (`parse_id_card_data` sections for the Moodle id, the name and the
  department, `is_valid_name`, `normalize_department`,
  `extract_photo_region`);
* `config/config.py` — the configuration constants used by the above.

Modelling conventions:

* Python `datetime` values are integer seconds (`Int`); the code only ever
  subtracts them and takes `timedelta.seconds`, which on integer-second
  differences equals the mathematical remainder mod 86400 (Python
  timedelta normalisation), i.e. `Int.emod`.
* Python dicts whose keys are fixed are records; a key that may hold
  `None` is an `Option` field.  `d.get(k, default)` returns the stored
  value — including a stored `None` — whenever the key is present, which
  is what makes `pending.get('id_card', ...)` able to return `None`.
* Exceptions are explicit: an operation that can raise returns an
  `Option PyErr` next to its result state.  All text is modelled at ASCII
  precision (`List Char`), which covers every string the claims concern.
* OCR confidences are rationals; the code compares them to constants that
  are exact at rational precision, and no float-rounding-sensitive
  comparison occurs in the modelled fragments (the single ratio test
  `vowel_count / len < 0.2` is modelled exactly as `5 * vowel_count < len`).
-/

namespace Campus

/-! ## Data model of the matcher (`access_control_system.py`) -/

/-- A vehicle detection dict as consumed by `process_vehicle_detection`:
only the keys the matcher reads (`is_valid`, `plate_text`). -/
structure VehicleData where
  is_valid : Bool
  plate_text : Option String
deriving DecidableEq

/-- An id-card detection dict as consumed by `process_id_card_detection`:
only the keys the matcher reads (`is_valid`, `moodle_id`, `name`). -/
structure IDCardData where
  is_valid : Bool
  moodle_id : Option String
  name : Option String
deriving DecidableEq

/-- A pending-verification dict as stored in `self.pending_verifications`:
`timestamp` (ISO string in the source, modelled as seconds), and the keys
`vehicle` and `id_card`, each possibly holding `None`. -/
structure PendingEntry where
  timestamp : Int
  vehicle : Option VehicleData
  id_card : Option IDCardData
deriving DecidableEq

/-- A record passed to `save_access_log`: either a `match_result` built by
`match_vehicle_and_id` (which has a `match_status`) or an expired pending
dict (which has none).  The decision timestamp string is irrelevant to
every claim and is omitted. -/
structure Decision where
  vehicle : Option VehicleData
  id_card : Option IDCardData
  match_status : Option String
  access_decision : String
  reason : Option String
deriving DecidableEq

/-- Exceptions the modelled fragments can raise.  The only one reachable
is `AttributeError` from `None.get(...)`. -/
inductive PyErr where
  | attributeError
deriving DecidableEq

/-- `config.py`: `ACCESS_TIME_WINDOW = 30`. -/
def ACCESS_TIME_WINDOW : Int := 30

/-- `config.py`: `REQUIRE_BOTH_VERIFICATIONS = True`. -/
def REQUIRE_BOTH_VERIFICATIONS : Bool := true

/-- Python truthiness of an optional string: `None` and `''` are falsy. -/
def truthyStr : Option String → Bool
  | none => false
  | some s => !(s = "")

/-- `vehicle_data and vehicle_data.get('is_valid', False)` as a boolean. -/
def vehicleValid : Option VehicleData → Bool
  | none => false
  | some v => v.is_valid

/-- `id_card_data and id_card_data.get('is_valid', False)` as a boolean. -/
def idCardValid : Option IDCardData → Bool
  | none => false
  | some c => c.is_valid

/-- `AccessControlSystem.match_vehicle_and_id` (lines 84–137), the pure
decision part (statistics counters omitted).  `requireBoth` is the
`REQUIRE_BOTH_VERIFICATIONS` configuration value. -/
def match_vehicle_and_id (requireBoth : Bool)
    (vehicle_data : Option VehicleData) (id_card_data : Option IDCardData) :
    Decision :=
  let vehicle_valid := vehicleValid vehicle_data
  let id_card_valid := idCardValid id_card_data
  if requireBoth then
    if vehicle_valid && id_card_valid then
      ⟨vehicle_data, id_card_data, some "matched", "granted", none⟩
    else
      ⟨vehicle_data, id_card_data, some "incomplete", "denied",
        some "Both vehicle and ID card required"⟩
  else
    if vehicle_valid || id_card_valid then
      ⟨vehicle_data, id_card_data, some "partial", "granted", none⟩
    else
      ⟨vehicle_data, id_card_data, some "failed", "denied",
        some "No valid identification"⟩

/-- The record an expired pending entry is logged as
(`check_pending_verification` lines 157–161): the pending dict with
`access_decision = 'denied'` and `reason = 'Verification timeout'`. -/
def expiredDecision (p : PendingEntry) : Decision :=
  ⟨p.vehicle, p.id_card, none, "denied", some "Verification timeout"⟩

/-- Outcome of the per-entry tests at lines 165 and 168. -/
inductive EntryTest where
  | matchedEntry
  | noMatch
  | raise (e : PyErr)
deriving DecidableEq

/-- Line 168: `if plate_number and pending.get('vehicle', {}).get('plate_text')
== plate_number`.  The stored `vehicle` key exists, so `.get('vehicle', {})`
yields the stored value; when that value is `None`, `None.get('plate_text')`
raises `AttributeError`. -/
def entry_test_plate (pNum : Option String) (p : PendingEntry) : EntryTest :=
  if truthyStr pNum then
    match p.vehicle with
    | none => .raise .attributeError
    | some v => if v.plate_text = pNum then .matchedEntry else .noMatch
  else .noMatch

/-- Line 165: `if moodle_id and pending.get('id_card', {}).get('moodle_id')
== moodle_id`, falling through to the plate test at line 168. -/
def entry_test (mId pNum : Option String) (p : PendingEntry) : EntryTest :=
  if truthyStr mId then
    match p.id_card with
    | none => .raise .attributeError
    | some c =>
      if c.moodle_id = mId then .matchedEntry else entry_test_plate pNum p
  else entry_test_plate pNum p

/-- Result of `check_pending_verification`: the returned entry (if any),
the pending dict after the call, the records passed to `save_access_log`
during the call, and the exception if one was raised (partial state and
logs are kept, as in Python, where the pops and log appends before the
raise have already happened). -/
structure CheckOut where
  found : Option PendingEntry
  pending : List (String × PendingEntry)
  logs : List Decision
  err : Option PyErr
deriving DecidableEq

/-- `AccessControlSystem.check_pending_verification` (lines 139–171).
The dict iteration (`list(self.pending_verifications.items())`) is the
association list in insertion order; `(current_time - pending_time).seconds`
is `(now - timestamp) % 86400` (timedelta normalisation). -/
def check_pending_aux (mId pNum : Option String) (now : Int) :
    List (String × PendingEntry) → CheckOut
  | [] => ⟨none, [], [], none⟩
  | (k, p) :: rest =>
    if (now - p.timestamp) % 86400 > ACCESS_TIME_WINDOW then
      ⟨(check_pending_aux mId pNum now rest).found,
       (check_pending_aux mId pNum now rest).pending,
       expiredDecision p :: (check_pending_aux mId pNum now rest).logs,
       (check_pending_aux mId pNum now rest).err⟩
    else
      match entry_test mId pNum p with
      | .matchedEntry => ⟨some p, rest, [], none⟩
      | .raise e => ⟨none, (k, p) :: rest, [], some e⟩
      | .noMatch =>
        ⟨(check_pending_aux mId pNum now rest).found,
         (k, p) :: (check_pending_aux mId pNum now rest).pending,
         (check_pending_aux mId pNum now rest).logs,
         (check_pending_aux mId pNum now rest).err⟩

/-- `check_pending_verification(moodle_id, plate_number)` over the whole
pending dict. -/
def check_pending (mId pNum : Option String) (now : Int)
    (pending : List (String × PendingEntry)) : CheckOut :=
  check_pending_aux mId pNum now pending

/-- The f-string pending key `f"vehicle_{plate_number}_{get_timestamp()}"`
(Python renders `None` as the text `None`; the timestamp is the arrival
time). -/
def mkKeyVehicle (plate : Option String) (now : Int) : String :=
  "vehicle_" ++ plate.getD "None" ++ "_" ++ toString now

/-- The f-string pending key `f"id_card_{moodle_id}_{get_timestamp()}"`. -/
def mkKeyId (mId : Option String) (now : Int) : String :=
  "id_card_" ++ mId.getD "None" ++ "_" ++ toString now

/-- Python dict assignment `d[key] = e`: replace in place when the key is
present, append otherwise. -/
def insertEntry (key : String) (e : PendingEntry) :
    List (String × PendingEntry) → List (String × PendingEntry)
  | [] => [(key, e)]
  | (k, p) :: t =>
    if k = key then (k, e) :: t else (k, p) :: insertEntry key e t

/-- In-memory system state: the pending dict and the access log
(`save_access_log` appends to `self.access_log`; file output ignored). -/
structure SysState where
  pending : List (String × PendingEntry)
  log : List Decision
deriving DecidableEq

/-- `AccessControlSystem.process_vehicle_detection` (lines 173–202),
called at time `now`.  The matched branch logs the decision and then the
`print` at line 193 evaluates `pending.get('id_card', {}).get('name')`,
which raises `AttributeError` when the popped entry's `id_card` is `None`
(the log append has already happened). -/
def process_vehicle_detection (vehicle_data : Option VehicleData)
    (now : Int) (st : SysState) : SysState × Option PyErr :=
  match vehicle_data with
  | none => (st, none)
  | some v =>
    if v.is_valid then
      let plate_number := v.plate_text
      let r := check_pending none plate_number now st.pending
      match r.err with
      | some e => (⟨r.pending, st.log ++ r.logs⟩, some e)
      | none =>
        match r.found with
        | some p =>
          let d := match_vehicle_and_id REQUIRE_BOTH_VERIFICATIONS
            (some v) p.id_card
          let st' : SysState := ⟨r.pending, st.log ++ r.logs ++ [d]⟩
          match p.id_card with
          | none => (st', some .attributeError)
          | some _ => (st', none)
        | none =>
          (⟨insertEntry (mkKeyVehicle plate_number now)
              ⟨now, some v, none⟩ r.pending,
            st.log ++ r.logs⟩, none)
    else (st, none)

/-- `AccessControlSystem.process_id_card_detection` (lines 204–234),
called at time `now`.  Symmetric to the vehicle side; the matched-branch
`print` at line 225 evaluates `pending.get('vehicle', {}).get('plate_text')`,
which raises `AttributeError` when the popped entry's `vehicle` is `None`. -/
def process_id_card_detection (id_card_data : Option IDCardData)
    (now : Int) (st : SysState) : SysState × Option PyErr :=
  match id_card_data with
  | none => (st, none)
  | some c =>
    if c.is_valid then
      let moodle_id := c.moodle_id
      let r := check_pending moodle_id none now st.pending
      match r.err with
      | some e => (⟨r.pending, st.log ++ r.logs⟩, some e)
      | none =>
        match r.found with
        | some p =>
          let d := match_vehicle_and_id REQUIRE_BOTH_VERIFICATIONS
            p.vehicle (some c)
          let st' : SysState := ⟨r.pending, st.log ++ r.logs ++ [d]⟩
          match p.vehicle with
          | none => (st', some .attributeError)
          | some _ => (st', none)
        | none =>
          (⟨insertEntry (mkKeyId moodle_id now)
              ⟨now, none, some c⟩ r.pending,
            st.log ++ r.logs⟩, none)
    else (st, none)

/-- An observation fed to the matcher, with its arrival time. -/
inductive Obs where
  | vehicle (vd : Option VehicleData) (t : Int)
  | idCard (c : Option IDCardData) (t : Int)

/-- One matcher step; a raised exception aborts the operation but the
mutations already performed stay (as in the Python process loop, where the
driver would observe the exception after the state was touched). -/
def stepObs (st : SysState) : Obs → SysState
  | .vehicle vd t => (process_vehicle_detection vd t st).1
  | .idCard c t => (process_id_card_detection c t st).1

/-- Run a sequence of observations from a given state. -/
def runObsFrom : SysState → List Obs → SysState
  | st, [] => st
  | st, o :: rest => runObsFrom (stepObs st o) rest

/-- Run a sequence of observations from the freshly initialised system
(empty pending dict, empty log). -/
def runObs (l : List Obs) : SysState :=
  runObsFrom ⟨[], []⟩ l

/-- A well-formed observation in the sense of the claims: the detection
dict is present and carries its key string (a nonempty plate for a vehicle
observation, a nonempty Moodle id for an identity observation). -/
def wfObs : Obs → Bool
  | .vehicle vd _ =>
    match vd with
    | some v => truthyStr v.plate_text
    | none => false
  | .idCard c _ =>
    match c with
    | some cc => truthyStr cc.moodle_id
    | none => false

/-- The key field a pending entry exposes to the plate test. -/
def entryPlate (p : PendingEntry) : Option String :=
  p.vehicle.bind (·.plate_text)

/-- The key field a pending entry exposes to the moodle test. -/
def entryMoodle (p : PendingEntry) : Option String :=
  p.id_card.bind (·.moodle_id)

/-- Two pending entries do not collide on a present plate or moodle key. -/
def KeyDisj (a b : PendingEntry) : Prop :=
  ((entryPlate a).isSome = true → entryPlate a ≠ entryPlate b)
  ∧ ((entryMoodle a).isSome = true → entryMoodle a ≠ entryMoodle b)

/-- The uniqueness invariant on a pending dict. -/
def Inv (l : List (String × PendingEntry)) : Prop :=
  l.Pairwise fun x y => KeyDisj x.2 y.2

/-- Concrete vehicle observation data used by the concrete-run theorems. -/
def vMH : VehicleData := ⟨true, some "MH12AB1234"⟩

/-- Concrete identity observation data used by the concrete-run theorems. -/
def cJohn : IDCardData := ⟨true, some "20230001", some "JOHN SMITH"⟩

/-- Concrete identity observation data (second subject). -/
def cAlice : IDCardData := ⟨true, some "21000001", some "ALICE WONDER"⟩

/-! ## Field extractor (`offline_id_card_recognizer.py`)

Text is `List Char` at ASCII precision.  The regular expressions the code
uses are implemented directly with Python `re` leftmost-match semantics;
every quantifier in them is greedy and, in each pattern, the greedy run is
followed by a character class disjoint from the run's class, so greedy
matching without backtracking is exact. -/

/-- Python `\s` (ASCII range). -/
def isPySpace (c : Char) : Bool :=
  c = ' ' || c = '\t' || c = '\n' || c = '\r' || c = '\x0B' || c = '\x0C'

/-- Python `\w` (ASCII range), for `\b` word boundaries. -/
def isWordC (c : Char) : Bool :=
  c.isAlphanum || c = '_'

/-- The class `[:\s]` used between a label and the digits. -/
def isColonSpace (c : Char) : Bool :=
  c = ':' || isPySpace c

/-- `\d{8}` at the current position: exactly the next 8 characters, all
digits (more digits may follow; `\d{8}` takes the first 8). -/
def take8 (l : List Char) : Option (List Char) :=
  if (l.take 8).length = 8 ∧ (l.take 8).all Char.isDigit = true then
    some (l.take 8)
  else none

/-- `ID\s*NO[:\s]*(\d{8})` (with `re.IGNORECASE`) matched at the current
position; returns the captured group. -/
def pat1At (l : List Char) : Option (List Char) :=
  match l with
  | a :: b :: r =>
    if a.toUpper = 'I' ∧ b.toUpper = 'D' then
      match r.dropWhile isPySpace with
      | n :: o :: r2 =>
        if n.toUpper = 'N' ∧ o.toUpper = 'O' then
          take8 (r2.dropWhile isColonSpace)
        else none
      | _ => none
    else none
  | _ => none

/-- `ID[:\s]*(\d{8})` (with `re.IGNORECASE`) matched at the current
position. -/
def pat2At (l : List Char) : Option (List Char) :=
  match l with
  | a :: b :: r =>
    if a.toUpper = 'I' ∧ b.toUpper = 'D' then
      take8 (r.dropWhile isColonSpace)
    else none
  | _ => none

/-- `\b` holds before the current position. -/
def bndBefore : Option Char → Bool
  | none => true
  | some c => !isWordC c

/-- `\b` holds after the match (end of text or a non-word character). -/
def bndAfter : List Char → Bool
  | [] => true
  | c :: _ => !isWordC c

/-- `\b(2\d{7})\b` matched at the current position (`prev` is the
character before it). -/
def pat3At (prev : Option Char) (l : List Char) : Option (List Char) :=
  if bndBefore prev then
    match l with
    | c :: r =>
      if c = '2' ∧ (r.take 7).length = 7 ∧ (r.take 7).all Char.isDigit = true
          ∧ bndAfter (r.drop 7) = true then
        some (c :: r.take 7)
      else none
    | [] => none
  else none

/-- `\b(\d{8})\b` matched at the current position. -/
def patFBAt (prev : Option Char) (l : List Char) : Option (List Char) :=
  if bndBefore prev then
    if (l.take 8).length = 8 ∧ (l.take 8).all Char.isDigit = true
        ∧ bndAfter (l.drop 8) = true then
      some (l.take 8)
    else none
  else none

/-- `re.search`: try the pattern at each position, leftmost first. -/
def searchPos (f : List Char → Option (List Char)) :
    List Char → Option (List Char)
  | [] => f []
  | c :: t =>
    match f (c :: t) with
    | some r => some r
    | none => searchPos f t

/-- `re.search` for a pattern that inspects the preceding character
(`\b`): `prev` is the character before the current position. -/
def searchBnd (f : Option Char → List Char → Option (List Char)) :
    Option Char → List Char → Option (List Char)
  | prev, [] => f prev []
  | prev, c :: t =>
    match f prev (c :: t) with
    | some r => some r
    | none => searchBnd f (some c) t

/-- The Moodle-id section of `parse_id_card_data` (lines 320–337): the
three `moodle_patterns` are searched in order (first match wins), then the
`\b(\d{8})\b` fallback runs if none of them matched. -/
def moodle_extract (s : List Char) : Option (List Char) :=
  match searchPos pat1At s with
  | some m => some m
  | none =>
    match searchPos pat2At s with
    | some m => some m
    | none =>
      match searchBnd pat3At none s with
      | some m => some m
      | none => searchBnd patFBAt none s

/-- Claim view of the identifier extractor (spec §4.1 wording): the first
substring that is 8 digits starting with 2; otherwise the first 8-digit
substring anywhere; otherwise null. -/
def claimPatA (l : List Char) : Option (List Char) :=
  if (l.take 8).length = 8 ∧ (l.take 8).all Char.isDigit = true
      ∧ (l.take 8).headD 'x' = '2' then
    some (l.take 8)
  else none

/-- Claim view of the identifier extractor, assembled per the spec's
sentence (to be compared with `moodle_extract`, which follows the code). -/
def claimExtract (s : List Char) : Option (List Char) :=
  match searchPos claimPatA s with
  | some m => some m
  | none => searchPos take8 s

/-- One EasyOCR result `(bbox, text, confidence)`; the bounding box is
never read by the parsing code and is omitted. -/
structure OCRItem where
  text : List Char
  conf : ℚ
deriving DecidableEq

/-- `" ".join([text for (_, text, _) in ocr_results])`. -/
def joinTexts (ocr : List OCRItem) : List Char :=
  List.intercalate [' '] (ocr.map (·.text))

/-- Python `str.strip()` (ASCII whitespace). -/
def pyStrip (l : List Char) : List Char :=
  (((l.dropWhile isPySpace).reverse).dropWhile isPySpace).reverse

/-- `re.finditer` for `([A-Z][A-Z\s]{10,50})`: at each position an
uppercase letter followed by at least 10 (greedily up to 50) characters in
`[A-Z\s]`; matches are non-overlapping, scanning resumes after each match.
The fuel argument only bounds the recursion and is never exhausted, since
every step consumes at least one character. -/
def findAll1Aux : Nat → List Char → List (List Char)
  | 0, _ => []
  | _ + 1, [] => []
  | fuel + 1, c :: t =>
    if c.isUpper then
      if ((t.takeWhile fun d => d.isUpper || isPySpace d).take 50).length ≥ 10
      then
        (c :: (t.takeWhile fun d => d.isUpper || isPySpace d).take 50)
          :: findAll1Aux fuel
            (t.drop ((t.takeWhile fun d => d.isUpper || isPySpace d).take
              50).length)
      else findAll1Aux fuel t
    else findAll1Aux fuel t

/-- All matches of the first name pattern over a text. -/
def findAll1 (l : List Char) : List (List Char) :=
  findAll1Aux l.length l

/-- `Name[:\s]+([A-Z][A-Za-z\s]+)` matched at the current position
(case-sensitive, as in the source, which passes no flag here); returns
the captured group and the rest of the text after the match. -/
def matchName2At (l : List Char) : Option (List Char × List Char) :=
  match l with
  | 'N' :: 'a' :: 'm' :: 'e' :: r1 =>
    if (r1.takeWhile isColonSpace).length ≥ 1 then
      match r1.drop (r1.takeWhile isColonSpace).length with
      | d :: r3 =>
        if d.isUpper then
          if (r3.takeWhile fun e => e.isAlpha || isPySpace e).length ≥ 1 then
            some (d :: (r3.takeWhile fun e => e.isAlpha || isPySpace e),
              r3.drop (r3.takeWhile fun e => e.isAlpha || isPySpace e).length)
          else none
        else none
      | [] => none
    else none
  | _ => none

/-- `re.finditer` for the second name pattern (fuelled like the first). -/
def findAll2Aux : Nat → List Char → List (List Char)
  | 0, _ => []
  | _ + 1, [] => []
  | fuel + 1, c :: t =>
    match matchName2At (c :: t) with
    | some (g, rest) => g :: findAll2Aux fuel rest
    | none => findAll2Aux fuel t

/-- All matches of the second name pattern over a text. -/
def findAll2 (l : List Char) : List (List Char) :=
  findAll2Aux l.length l

/-- Python `str.split()` with no argument: split on whitespace runs. -/
def splitWSAux : Nat → List Char → List (List Char)
  | 0, _ => []
  | _ + 1, [] => []
  | fuel + 1, c :: t =>
    if isPySpace c then splitWSAux fuel t
    else
      (c :: t.takeWhile fun d => !isPySpace d)
        :: splitWSAux fuel (t.drop (t.takeWhile fun d => !isPySpace d).length)

/-- Python `str.split()` over a text. -/
def splitWS (l : List Char) : List (List Char) :=
  splitWSAux l.length l

/-- `self.invalid_name_patterns` from `OfflineIDCardRecognizer.__init__`. -/
def invalid_name_patterns : List String :=
  ["apsit", "engineering", "comp", "engineer", "technology",
   "institute", "department", "mech", "civil", "elect",
   "principal", "charitable", "trust", "address", "addross",
   "shah", "parshvanalh"]

/-- `n` occurs as a contiguous run inside `h`. -/
def isPrefixC : List Char → List Char → Bool
  | [], _ => true
  | _ :: _, [] => false
  | a :: as, b :: bs => a = b && isPrefixC as bs

/-- Substring containment (`x in y` on Python strings). -/
def isInfixC (n : List Char) : List Char → Bool
  | [] => isPrefixC n []
  | h@(_ :: t) => isPrefixC n h || isInfixC n t

/-- `OfflineIDCardRecognizer.is_valid_name` (lines 209–243).  The vowel
ratio test `vowel_count / len(text_clean) < 0.2` is exact at rational
precision and is written `5 * vowel_count < len`. -/
def is_valid_name (text : List Char) : Bool :=
  let text_clean := (pyStrip text).map Char.toUpper
  let text_lower := text_clean.map Char.toLower
  if !(text_clean.all fun c => c.isAlpha || isPySpace c) then false
  else if text_clean.length < 6 || text_clean.length > 30 then false
  else if invalid_name_patterns.any
      (fun pat => isInfixC pat.toList text_lower) then false
  else if !(text_clean.contains ' ') && text_clean.length < 8 then false
  else if (splitWS text_clean).length = 1
      && ((splitWS text_clean).headD []).length < 8 then false
  else if decide (0 < text_clean.length)
      && decide (5 * (text_lower.filter fun c =>
          c = 'a' || c = 'e' || c = 'i' || c = 'o' || c = 'u').length
        < text_clean.length) then false
  else true

/-- Python `max(candidates, key=len)` wrapped in the `if name_candidates:`
guard: the first candidate of maximal length, `None` when there are no
candidates. -/
def maxByLen : List (List Char) → Option (List Char)
  | [] => none
  | x :: t =>
    match maxByLen t with
    | none => some x
    | some y => if y.length > x.length then some y else some x

/-- The name candidates of the name section of `parse_id_card_data`
(lines 339–353): group 1 of each match of the two `name_patterns` over the
joined text, stripped, kept when `is_valid_name` accepts it (pattern 1
matches first, then pattern 2, as in the loop). -/
def candidatesOf (allText : List Char) : List (List Char) :=
  ((findAll1 allText).map pyStrip ++ (findAll2 allText).map pyStrip).filter
    is_valid_name

/-- The name section of `parse_id_card_data` (lines 339–356). -/
def parse_name (ocr : List OCRItem) : Option (List Char) :=
  maxByLen (candidatesOf (joinTexts ocr))

/-- Claim view of name selection (spec §4.1 wording): among valid
fragments pick the highest OCR confidence, tie-break by longest string. -/
def pickBest : List OCRItem → Option OCRItem
  | [] => none
  | x :: t =>
    match pickBest t with
    | none => some x
    | some y =>
      if y.conf > x.conf ∨ (y.conf = x.conf ∧ y.text.length > x.text.length)
      then some y
      else some x

/-- Claim view of the name extractor, assembled per the spec's sentence
(to be compared with `parse_name`, which follows the code). -/
def claimName (ocr : List OCRItem) : Option (List Char) :=
  (pickBest (ocr.filter fun it => is_valid_name it.text)).map (·.text)

/-- `self.valid_departments` from `OfflineIDCardRecognizer.__init__`
(insertion-ordered dict). -/
def valid_departments : List (String × String) :=
  [("computer", "COMPUTER ENGINEERING"),
   ("mechanical", "MECHANICAL ENGINEERING"),
   ("civil", "CIVIL ENGINEERING"),
   ("electrical", "ELECTRICAL ENGINEERING"),
   ("electronics", "ELECTRONICS ENGINEERING"),
   ("information", "INFORMATION TECHNOLOGY"),
   ("it", "INFORMATION TECHNOLOGY")]

/-- First `some` produced by `f` along a list (a Python for-loop that
breaks on success). -/
def firstSome {α β : Type} (f : α → Option β) : List α → Option β
  | [] => none
  | a :: t =>
    match f a with
    | some b => some b
    | none => firstSome f t

/-- `OfflineIDCardRecognizer.normalize_department` (lines 245–270). -/
def normalize_department (text : List Char) : Option String :=
  let text_lower := text.map Char.toLower
  match firstSome
      (fun kv => if isInfixC kv.1.toList text_lower then some kv.2 else none)
      valid_departments with
  | some d => some d
  | none =>
    if isInfixC "engineer".toList text_lower
        || isInfixC "engin".toList text_lower then
      if isInfixC "compu".toList text_lower
          || isInfixC "comp".toList text_lower then
        some "COMPUTER ENGINEERING"
      else if isInfixC "mech".toList text_lower then
        some "MECHANICAL ENGINEERING"
      else if isInfixC "civil".toList text_lower then
        some "CIVIL ENGINEERING"
      else if isInfixC "elect".toList text_lower then
        some "ELECTRICAL ENGINEERING"
      else if isInfixC "electron".toList text_lower then
        some "ELECTRONICS ENGINEERING"
      else if isInfixC "info".toList text_lower
          || isInfixC "it".toList text_lower then
        some "INFORMATION TECHNOLOGY"
      else none
    else none

/-- `dept_keywords` from the department section of `parse_id_card_data`
(lines 359–371). -/
def dept_keywords : List String :=
  ["COMPUTER ENGINEERING", "MECHANICAL ENGINEERING", "CIVIL ENGINEERING",
   "ELECTRICAL ENGINEERING", "ELECTRONICS ENGINEERING",
   "INFORMATION TECHNOLOGY", "IT", "CSE", "ECE", "EEE",
   "COMPUTER", "MECHANICAL", "CIVIL", "ELECTRICAL", "ELECTRONICS"]

/-- The department section of `parse_id_card_data` (lines 373–379): the
first keyword contained in the uppercased text whose normalisation is
truthy sets the department (a keyword whose normalisation is `None` does
not break the loop). -/
def parse_department (allText : List Char) : Option String :=
  firstSome
    (fun k =>
      if isInfixC k.toList (allText.map Char.toUpper) then
        normalize_department k.toList
      else none)
    dept_keywords

/-- The six canonical department strings (the codomain of
`valid_departments` and of the typo-repair branch). -/
def canonicalDepartments : List String :=
  ["COMPUTER ENGINEERING", "MECHANICAL ENGINEERING", "CIVIL ENGINEERING",
   "ELECTRICAL ENGINEERING", "ELECTRONICS ENGINEERING",
   "INFORMATION TECHNOLOGY"]

/-! ## Photo region (`extract_photo_region`, config `ID_CARD_REGIONS`) -/

/-- A Python value that is either a 4-tuple or a string-keyed region dict
(the shape `extract_photo_region` expects). -/
inductive RegionVal where
  | tup (a b c d : ℚ)
  | dict (x y w h : ℚ)
deriving DecidableEq

/-- `config.py` line 84: `ID_CARD_REGIONS['photo'] = (0.25, 0.15, 0.75,
0.50)` — a tuple, not a dict. -/
def ID_CARD_REGIONS_photo : RegionVal :=
  .tup (1/4) (3/20) (3/4) (1/2)

/-- Python subscripting `v[k]` with a string key: raises `TypeError` on a
tuple, looks the key up on a dict. -/
def strIndex : RegionVal → String → Except String ℚ
  | .tup _ _ _ _, _ => .error "tuple indices must be integers"
  | .dict x y w h, k =>
    if k = "x" then .ok x
    else if k = "y" then .ok y
    else if k = "width" then .ok w
    else if k = "height" then .ok h
    else .error "KeyError"

/-- An image as far as the modelled code reads it: `shape[:2]`. -/
structure PyImage where
  height : Nat
  width : Nat
deriving DecidableEq

/-- Python `int()` truncation toward zero. -/
def pyInt (q : ℚ) : Int :=
  if 0 ≤ q then q.floor else -((-q).floor)

/-- Length of the Python slice `[a:b]` of an axis of size `n`. -/
def sliceLen (n : Nat) (a b : Int) : Nat :=
  (if b < 0 then (min ((n : Int) + b).toNat n) else min b.toNat n)
    - (if a < 0 then (min ((n : Int) + a).toNat n) else min a.toNat n)

/-- `OfflineIDCardRecognizer.extract_photo_region` (lines 406–429): the
body is wrapped in `try/except` and returns `None` on any exception; the
string-keyed accesses `ID_CARD_REGIONS['photo']['x']` etc. raise
`TypeError` because the configured value is a tuple. -/
def extract_photo_region (card_image : PyImage) : Option PyImage :=
  match (do
      let xq ← strIndex ID_CARD_REGIONS_photo "x"
      let yq ← strIndex ID_CARD_REGIONS_photo "y"
      let wq ← strIndex ID_CARD_REGIONS_photo "width"
      let hq ← strIndex ID_CARD_REGIONS_photo "height"
      let x1 := pyInt ((card_image.width : ℚ) * xq)
      let y1 := pyInt ((card_image.height : ℚ) * yq)
      let x2 := pyInt ((card_image.width : ℚ) * (xq + wq))
      let y2 := pyInt ((card_image.height : ℚ) * (yq + hq))
      pure (⟨sliceLen card_image.height y1 y2,
             sliceLen card_image.width x1 x2⟩ : PyImage)
      : Except String PyImage) with
  | .ok p => some p
  | .error _ => none

/-- `card_data['photo_extracted'] = photo is not None and photo.size > 0`
(lines 400–402). -/
def photo_extracted (card_image : PyImage) : Bool :=
  match extract_photo_region card_image with
  | none => false
  | some p => decide (0 < p.height * p.width)

/-! ## Theorems -/

theorem entry_test_plate_noMatch {pNum : Option String} {p : PendingEntry}
    (h : entry_test_plate pNum p = .noMatch) :
    truthyStr pNum = true → ∃ v, p.vehicle = some v ∧ v.plate_text ≠ pNum := by
  intro hp
  unfold entry_test_plate at h
  rw [if_pos hp] at h
  rcases hv : p.vehicle with _ | v
  · simp only [hv] at h
    exact absurd h (by decide)
  · simp only [hv] at h
    by_cases he : v.plate_text = pNum
    · rw [if_pos he] at h; simp at h
    · exact ⟨v, rfl, he⟩

theorem entry_test_noMatch {mId pNum : Option String} {p : PendingEntry}
    (h : entry_test mId pNum p = .noMatch) :
    (truthyStr mId = true → ∃ c, p.id_card = some c ∧ c.moodle_id ≠ mId)
    ∧ (truthyStr pNum = true → ∃ v, p.vehicle = some v ∧ v.plate_text ≠ pNum) := by
  unfold entry_test at h
  by_cases hm : truthyStr mId = true
  · rw [if_pos hm] at h
    rcases hic : p.id_card with _ | c
    · simp only [hic] at h
      exact absurd h (by decide)
    · simp only [hic] at h
      by_cases heq : c.moodle_id = mId
      · rw [if_pos heq] at h; simp at h
      · rw [if_neg heq] at h
        exact ⟨fun _ => ⟨c, rfl, heq⟩, entry_test_plate_noMatch h⟩
  · rw [if_neg hm] at h
    exact ⟨fun h2 => absurd h2 hm, entry_test_plate_noMatch h⟩

theorem check_pending_sublist (mId pNum : Option String) (now : Int) :
    ∀ l, (check_pending_aux mId pNum now l).pending.Sublist l := by
  intro l
  induction l with
  | nil => simp [check_pending_aux]
  | cons hd rest ih =>
    obtain ⟨k, p⟩ := hd
    simp only [check_pending_aux]
    split
    · exact ih.cons _
    · split
      · exact (List.Sublist.refl rest).cons _
      · exact List.Sublist.refl _
      · exact ih.cons₂ _

theorem check_pending_clean (mId pNum : Option String) (now : Int) :
    ∀ l, (check_pending_aux mId pNum now l).err = none →
      (check_pending_aux mId pNum now l).found = none →
      ∀ kp ∈ (check_pending_aux mId pNum now l).pending,
        (truthyStr pNum = true → entryPlate kp.2 ≠ pNum)
        ∧ (truthyStr mId = true → entryMoodle kp.2 ≠ mId) := by
  intro l
  induction l with
  | nil => intro _ _ kp hkp; simp [check_pending_aux] at hkp
  | cons hd rest ih =>
    obtain ⟨k, p⟩ := hd
    simp only [check_pending_aux]
    split
    · exact ih
    · split
      · intro _ hf; simp at hf
      · intro he _; simp at he
      · next heq =>
        intro he hf kp hkp
        rcases List.mem_cons.mp hkp with rfl | hkp2
        · obtain ⟨hmood, hplate⟩ := entry_test_noMatch heq
          constructor
          · intro hp
            obtain ⟨v, hv, hne⟩ := hplate hp
            simp only [entryPlate, hv, Option.bind]
            exact hne
          · intro hmm
            obtain ⟨c, hc, hne⟩ := hmood hmm
            simp only [entryMoodle, hc, Option.bind]
            exact hne
        · exact ih he hf kp hkp2

theorem mem_insertEntry {key : String} {e : PendingEntry} :
    ∀ {l kp}, kp ∈ insertEntry key e l → kp ∈ l ∨ kp.2 = e := by
  intro l
  induction l with
  | nil =>
    intro kp h
    simp only [insertEntry, List.mem_singleton] at h
    right; rw [h]
  | cons hd t ih =>
    obtain ⟨k, p⟩ := hd
    intro kp h
    simp only [insertEntry] at h
    split at h
    · rcases List.mem_cons.mp h with rfl | h2
      · right; rfl
      · left; exact List.mem_cons_of_mem _ h2
    · rcases List.mem_cons.mp h with rfl | h2
      · left; exact List.mem_cons_self _ _
      · rcases ih h2 with h3 | h3
        · left; exact List.mem_cons_of_mem _ h3
        · right; exact h3

theorem inv_insert {key : String} {e : PendingEntry} :
    ∀ {l}, Inv l → (∀ kp ∈ l, KeyDisj kp.2 e ∧ KeyDisj e kp.2) →
      Inv (insertEntry key e l) := by
  intro l
  induction l with
  | nil =>
    intro _ _
    simp only [insertEntry, Inv]
    exact List.pairwise_singleton _ _
  | cons hd t ih =>
    obtain ⟨k, p⟩ := hd
    intro hInv h2
    obtain ⟨hhd, htl⟩ := List.pairwise_cons.mp hInv
    simp only [insertEntry]
    split
    · exact List.pairwise_cons.mpr
        ⟨fun b hb => (h2 b (List.mem_cons_of_mem _ hb)).2, htl⟩
    · refine List.pairwise_cons.mpr ⟨?_,
        ih htl (fun kp hkp => h2 kp (List.mem_cons_of_mem _ hkp))⟩
      intro b hb
      rcases mem_insertEntry hb with h3 | h3
      · exact hhd b h3
      · rw [h3]
        exact (h2 (k, p) (List.mem_cons_self _ _)).1

theorem filter_nil_of_none {α : Type} (P : α → Bool) :
    ∀ l : List α, (∀ b ∈ l, P b = false) → l.filter P = [] := by
  intro l h
  induction l with
  | nil => rfl
  | cons a t ih =>
    rw [List.filter_cons]
    simp only [h a (List.mem_cons_self _ _), if_false]
    exact ih fun b hb => h b (List.mem_cons_of_mem _ hb)

theorem pairwise_filter_len {α : Type} {R : α → α → Prop} (P : α → Bool)
    (hPR : ∀ a b, R a b → P a = true → P b = true → False) :
    ∀ l : List α, l.Pairwise R → (l.filter P).length ≤ 1 := by
  intro l
  induction l with
  | nil => intro _; simp
  | cons a t ih =>
    intro h
    obtain ⟨h1, h2⟩ := List.pairwise_cons.mp h
    rw [List.filter_cons]
    by_cases hPa : P a = true
    · rw [if_pos hPa]
      have ht : t.filter P = [] := by
        refine filter_nil_of_none P t fun b hb => ?_
        by_cases hPb : P b = true
        · exact (hPR a b (h1 b hb) hPa hPb).elim
        · exact Bool.eq_false_iff.mpr hPb
      rw [ht]
      simp
    · rw [if_neg hPa]
      exact ih h2

theorem inv_step_vehicle (vd : Option VehicleData) (t : Int) (st : SysState)
    (hInv : Inv st.pending) (hwf : wfObs (Obs.vehicle vd t) = true) :
    Inv (process_vehicle_detection vd t st).1.pending := by
  rcases vd with _ | v
  · exact hInv
  · have hwf' : truthyStr v.plate_text = true := by simpa [wfObs] using hwf
    simp only [process_vehicle_detection]
    by_cases hv : v.is_valid = true
    · rw [if_pos hv]
      cases herr : (check_pending none v.plate_text t st.pending).err with
      | some e =>
        simp only [herr]
        exact List.Pairwise.sublist (check_pending_sublist none v.plate_text t st.pending) hInv
      | none =>
        simp only [herr]
        cases hfound : (check_pending none v.plate_text t st.pending).found with
        | some p =>
          simp only [hfound]
          cases hic : p.id_card <;> simp only [hic] <;>
            exact List.Pairwise.sublist (check_pending_sublist none v.plate_text t st.pending) hInv
        | none =>
          simp only [hfound]
          refine inv_insert
            (List.Pairwise.sublist
              (check_pending_sublist none v.plate_text t st.pending) hInv) ?_
          intro kp hkp
          have hclean := check_pending_clean none v.plate_text t st.pending
            herr hfound kp hkp
          have hne : entryPlate kp.2 ≠ v.plate_text := hclean.1 hwf'
          refine ⟨⟨fun _ => ?_, fun hm => ?_⟩, ⟨fun _ => ?_, fun hm => ?_⟩⟩
          · have h0 : entryPlate ⟨t, some v, none⟩ = v.plate_text := rfl
            rw [h0]; exact hne
          · have h0 : entryMoodle (⟨t, some v, none⟩ : PendingEntry) = none := rfl
            rw [h0]; intro hEq; rw [hEq] at hm; simp at hm
          · have h0 : entryPlate ⟨t, some v, none⟩ = v.plate_text := rfl
            rw [h0]; exact fun hEq => hne hEq.symm
          · have h0 : entryMoodle (⟨t, some v, none⟩ : PendingEntry) = none := rfl
            rw [h0] at hm; simp at hm
    · rw [if_neg hv]
      exact hInv

theorem inv_step_id (c : Option IDCardData) (t : Int) (st : SysState)
    (hInv : Inv st.pending) (hwf : wfObs (Obs.idCard c t) = true) :
    Inv (process_id_card_detection c t st).1.pending := by
  rcases c with _ | cc
  · exact hInv
  · have hwf' : truthyStr cc.moodle_id = true := by simpa [wfObs] using hwf
    simp only [process_id_card_detection]
    by_cases hv : cc.is_valid = true
    · rw [if_pos hv]
      cases herr : (check_pending cc.moodle_id none t st.pending).err with
      | some e =>
        simp only [herr]
        exact List.Pairwise.sublist (check_pending_sublist cc.moodle_id none t st.pending) hInv
      | none =>
        simp only [herr]
        cases hfound : (check_pending cc.moodle_id none t st.pending).found with
        | some p =>
          simp only [hfound]
          cases hvv : p.vehicle <;> simp only [hvv] <;>
            exact List.Pairwise.sublist (check_pending_sublist cc.moodle_id none t st.pending) hInv
        | none =>
          simp only [hfound]
          refine inv_insert
            (List.Pairwise.sublist (check_pending_sublist cc.moodle_id none t st.pending) hInv) ?_
          intro kp hkp
          have hclean := check_pending_clean cc.moodle_id none t st.pending
            herr hfound kp hkp
          have hne : entryMoodle kp.2 ≠ cc.moodle_id := hclean.2 hwf'
          refine ⟨⟨fun hm => ?_, fun _ => ?_⟩, ⟨fun hm => ?_, fun _ => ?_⟩⟩
          · have h0 : entryPlate (⟨t, none, some cc⟩ : PendingEntry) = none := rfl
            rw [h0]; intro hEq; rw [hEq] at hm; simp at hm
          · have h0 : entryMoodle ⟨t, none, some cc⟩ = cc.moodle_id := rfl
            rw [h0]; exact hne
          · have h0 : entryPlate (⟨t, none, some cc⟩ : PendingEntry) = none := rfl
            rw [h0] at hm; simp at hm
          · have h0 : entryMoodle ⟨t, none, some cc⟩ = cc.moodle_id := rfl
            rw [h0]; exact fun hEq => hne hEq.symm
    · rw [if_neg hv]
      exact hInv

theorem inv_run : ∀ (obs : List Obs) (st : SysState), Inv st.pending →
    (∀ o ∈ obs, wfObs o = true) → Inv (runObsFrom st obs).pending := by
  intro obs
  induction obs with
  | nil => intro st h _; exact h
  | cons o rest ih =>
    intro st h hwf
    have h1 : Inv (stepObs st o).pending := by
      cases o with
      | vehicle vd t2 =>
        exact inv_step_vehicle vd t2 st h (hwf _ (List.mem_cons_self _ _))
      | idCard c t2 =>
        exact inv_step_id c t2 st h (hwf _ (List.mem_cons_self _ _))
    exact ih (stepObs st o) h1 fun o2 ho2 => hwf o2 (List.mem_cons_of_mem _ ho2)

/-- C3: for every sequence of well-formed observations, the pending dict
reached by the matcher holds at most one entry per distinct plate string
and at most one entry per distinct subject identifier (an observation for
an already-pending key pops the existing entry instead of adding a second
one; this also holds across invocations that raise, whose partial states
only ever remove entries). -/
theorem C3_unique_pending (obs : List Obs) (h : ∀ o ∈ obs, wfObs o = true)
    (s : String) :
    ((runObs obs).pending.filter
        (fun kp => decide (entryPlate kp.2 = some s))).length ≤ 1
    ∧ ((runObs obs).pending.filter
        (fun kp => decide (entryMoodle kp.2 = some s))).length ≤ 1 := by
  have hInv : Inv (runObs obs).pending :=
    inv_run obs ⟨[], []⟩ List.Pairwise.nil h
  constructor
  · refine pairwise_filter_len _ ?_ _ hInv
    intro a b hab ha hb
    simp only [decide_eq_true_eq] at ha hb
    exact (hab.1 (by rw [ha]; rfl)) (by rw [ha, hb])
  · refine pairwise_filter_len _ ?_ _ hInv
    intro a b hab ha hb
    simp only [decide_eq_true_eq] at ha hb
    exact (hab.2 (by rw [ha]; rfl)) (by rw [ha, hb])

/-- Witness for C3 at a concrete well-formed observation sequence. -/
theorem C3_unique_pending_witness :
    ((runObs [Obs.vehicle (some vMH) 0]).pending.filter
        (fun kp => decide (entryPlate kp.2 = some "MH12AB1234"))).length ≤ 1
    ∧ ((runObs [Obs.vehicle (some vMH) 0]).pending.filter
        (fun kp => decide (entryMoodle kp.2 = some "MH12AB1234"))).length ≤ 1 :=
  C3_unique_pending [Obs.vehicle (some vMH) 0] (by decide) "MH12AB1234"

/-- C4 (amended): pending entries are removed only inside an invocation
of the matcher's pending scan, never by the mere passage of time.  An
invocation whose queries match nothing (both falsy) raises nothing and
removes exactly the entries whose elapsed-seconds component
`(now - timestamp) % 86400` exceeds `ACCESS_TIME_WINDOW`, emitting exactly
one denied/'Verification timeout' record per removed entry; entries whose
age is within the window — or a whole day beyond it, due to the `.seconds`
wrap-around — survive. -/
theorem C4_sweep (now : Int) (l : List (String × PendingEntry)) :
    (check_pending none none now l).err = none
    ∧ (check_pending none none now l).found = none
    ∧ (check_pending none none now l).pending
        = l.filter (fun kp =>
            decide ((now - kp.2.timestamp) % 86400 ≤ ACCESS_TIME_WINDOW))
    ∧ (check_pending none none now l).logs
        = (l.filter (fun kp =>
            decide ((now - kp.2.timestamp) % 86400 > ACCESS_TIME_WINDOW))).map
            (fun kp => expiredDecision kp.2) := by
  induction l with
  | nil => exact ⟨rfl, rfl, rfl, rfl⟩
  | cons hd rest ih =>
    obtain ⟨k, p⟩ := hd
    obtain ⟨ihe, ihf, ihp, ihl⟩ := ih
    have hnm : entry_test none none p = EntryTest.noMatch := rfl
    simp only [check_pending, check_pending_aux] at *
    by_cases hexp : (now - p.timestamp) % 86400 > ACCESS_TIME_WINDOW
    · rw [if_pos hexp]
      refine ⟨ihe, ihf, ?_, ?_⟩
      · rw [List.filter_cons, if_neg (by simpa using not_le.mpr hexp)]
        exact ihp
      · rw [List.filter_cons, if_pos (by simpa using hexp)]
        rw [List.map_cons]
        exact congrArg _ ihl
    · rw [if_neg hexp, hnm]
      refine ⟨ihe, ihf, ?_, ?_⟩
      · rw [List.filter_cons, if_pos (by simpa using not_lt.mp hexp)]
        exact congrArg _ ihp
      · rw [List.filter_cons, if_neg (by simpa using hexp)]
        exact ihl

/-- C4: counterexample to the claim as stated.  After a vehicle
observation at t=0 and an empty subsequent sequence of invocations, the
pending entry (timestamp 0) is still present although its age at t=31
exceeds the 30-second window, and even a scan invoked at t=86405 (one day
plus 5 seconds later) removes nothing because `(86405 - 0).seconds = 5`. -/
theorem C4_counter :
    runObsFrom (runObs [Obs.vehicle (some vMH) 0]) [] = runObs [Obs.vehicle (some vMH) 0]
    ∧ (runObs [Obs.vehicle (some vMH) 0]).pending.map (fun kp => kp.2.timestamp) = [0]
    ∧ ((31 : Int) - 0) % 86400 > ACCESS_TIME_WINDOW
    ∧ (check_pending none none 86405
        (runObs [Obs.vehicle (some vMH) 0]).pending).pending
      = (runObs [Obs.vehicle (some vMH) 0]).pending := by
  refine ⟨rfl, by decide, by decide, by decide⟩

/-- C1: refuted on the code.  A well-formed identity observation is
pending (its `vehicle` key holds `None`); processing a well-formed vehicle
observation then raises `AttributeError` inside
`check_pending_verification` (line 168: `pending.get('vehicle', {}).get(...)`
evaluates to `None.get(...)`), so the matcher does raise on well-formed
input.  The claim's universal never-raises property is the code's intent
(the `.get(..., {})` default is a guard that never applies); this theorem
evaluates the code at the failing input. -/
theorem C1_raises :
    (process_vehicle_detection (some vMH) 5
        (runObs [Obs.idCard (some cJohn) 0])).2 = some PyErr.attributeError
    ∧ wfObs (Obs.vehicle (some vMH) 5) = true
    ∧ (∀ o ∈ [Obs.idCard (some cJohn) 0], wfObs o = true) := by
  refine ⟨by decide, by decide, by decide⟩

/-- C2: refuted on the code.  In the spec's example scenario (vehicle
MH12AB1234 observed at t=0, identity 20230001 at t=10, window 30) the
identity observation raises `AttributeError` at the pending vehicle entry
(line 165: `pending.get('id_card', {}).get('moodle_id')` on a stored
`None`), no `AccessDecision` is emitted, and the vehicle entry is neither
matched nor removed — not the claimed matched/granted outcome. -/
theorem C2_scenario :
    (process_id_card_detection (some cJohn) 10
        (runObs [Obs.vehicle (some vMH) 0])).2 = some PyErr.attributeError
    ∧ (process_id_card_detection (some cJohn) 10
        (runObs [Obs.vehicle (some vMH) 0])).1.log = []
    ∧ (process_id_card_detection (some cJohn) 10
        (runObs [Obs.vehicle (some vMH) 0])).1.pending
      = (runObs [Obs.vehicle (some vMH) 0]).pending
    ∧ (runObs [Obs.vehicle (some vMH) 0]).pending.length = 1 := by
  refine ⟨by decide, by decide, by decide, by decide⟩

/-- C5: policy evaluation of `match_vehicle_and_id`.  In both-required
mode the decision is granted iff both sides are present and individually
valid, otherwise denied with the 'Both vehicle and ID card required'
reason; in either-sufficient mode it is granted iff at least one side is
valid and denied exactly when neither is. -/
theorem C5_policy (vd : Option VehicleData) (idc : Option IDCardData) :
    ((match_vehicle_and_id true vd idc).access_decision = "granted"
      ↔ vehicleValid vd = true ∧ idCardValid idc = true)
    ∧ ((match_vehicle_and_id true vd idc).access_decision ≠ "granted"
      → (match_vehicle_and_id true vd idc).access_decision = "denied"
        ∧ (match_vehicle_and_id true vd idc).reason
          = some "Both vehicle and ID card required")
    ∧ ((match_vehicle_and_id false vd idc).access_decision = "granted"
      ↔ vehicleValid vd = true ∨ idCardValid idc = true)
    ∧ ((match_vehicle_and_id false vd idc).access_decision = "denied"
      ↔ vehicleValid vd = false ∧ idCardValid idc = false) := by
  cases hv : vehicleValid vd <;> cases hi : idCardValid idc <;>
    simp [match_vehicle_and_id, hv, hi]

/-- Witness for C5 at a concrete input (both sides absent,
both-required mode). -/
theorem C5_policy_witness :
    (match_vehicle_and_id true none none).access_decision = "denied"
    ∧ (match_vehicle_and_id true none none).reason
      = some "Both vehicle and ID card required" :=
  (C5_policy none none).2.1 (by decide)

/-- C6: refuted on the code.  A pending identity entry matched by a
second identity observation with the same subject identifier produces
exactly one `AccessDecision`, but that decision's `vehicle` field is
`None` — it does not reference both a vehicle observation and an identity
observation — and the matched branch then raises `AttributeError` in its
`print` (line 225).  Cross-type matches, which could reference both sides,
raise before matching (see C1/C2). -/
theorem C6_one_sided :
    (process_id_card_detection (some cAlice) 1
        (runObs [Obs.idCard (some cAlice) 0])).1.log
      = [⟨none, some cAlice, some "incomplete", "denied",
          some "Both vehicle and ID card required"⟩]
    ∧ (process_id_card_detection (some cAlice) 1
        (runObs [Obs.idCard (some cAlice) 0])).1.pending = []
    ∧ (process_id_card_detection (some cAlice) 1
        (runObs [Obs.idCard (some cAlice) 0])).2 = some PyErr.attributeError := by
  refine ⟨by decide, by decide, by decide⟩

theorem searchPos_some {f : List Char → Option (List Char)} :
    ∀ {s m}, searchPos f s = some m → ∃ l, f l = some m := by
  intro s
  induction s with
  | nil => intro m h; exact ⟨[], h⟩
  | cons c t ih =>
    intro m h
    simp only [searchPos] at h
    cases hf : f (c :: t) with
    | some r => simp only [hf] at h; exact ⟨c :: t, hf.trans (congrArg _ (Option.some.inj h))⟩
    | none => simp only [hf] at h; exact ih h

theorem searchBnd_some {f : Option Char → List Char → Option (List Char)} :
    ∀ {prev s m}, searchBnd f prev s = some m → ∃ pr l, f pr l = some m := by
  intro prev s
  induction s generalizing prev with
  | nil => intro m h; exact ⟨prev, [], h⟩
  | cons c t ih =>
    intro m h
    simp only [searchBnd] at h
    cases hf : f prev (c :: t) with
    | some r =>
      simp only [hf] at h
      exact ⟨prev, c :: t, hf.trans (congrArg _ (Option.some.inj h))⟩
    | none => simp only [hf] at h; exact ih h

theorem take8_some {l m : List Char} (h : take8 l = some m) :
    m.length = 8 ∧ m.all Char.isDigit = true := by
  unfold take8 at h
  split at h
  · next hc =>
    injection h with h2
    subst h2
    exact hc
  · cases h

theorem pat1At_digits {l m : List Char} (h : pat1At l = some m) :
    m.length = 8 ∧ m.all Char.isDigit = true := by
  unfold pat1At at h
  repeat' split at h
  all_goals first | exact take8_some h | cases h

theorem pat2At_digits {l m : List Char} (h : pat2At l = some m) :
    m.length = 8 ∧ m.all Char.isDigit = true := by
  unfold pat2At at h
  repeat' split at h
  all_goals first | exact take8_some h | cases h

theorem pat3At_digits {prev : Option Char} {l m : List Char}
    (h : pat3At prev l = some m) :
    m.length = 8 ∧ m.all Char.isDigit = true := by
  unfold pat3At at h
  repeat' split at h
  all_goals try cases h
  all_goals refine ⟨by simp [*], ?_⟩
  all_goals simp [List.all_cons, *]

theorem patFBAt_digits {prev : Option Char} {l m : List Char}
    (h : patFBAt prev l = some m) :
    m.length = 8 ∧ m.all Char.isDigit = true := by
  unfold patFBAt at h
  repeat' split at h
  all_goals try cases h
  all_goals rename_i hc
  all_goals exact ⟨hc.1, hc.2.1⟩

/-- C7 (amended): identifier extraction applies the two labelled context
patterns first, then the word-bounded `2`-leading pattern, then the
word-bounded 8-digit fallback; it returns null iff none of the four
patterns matches anywhere in the text; every returned identifier is an
8-digit string. -/
theorem C7_moodle (s : List Char) :
    (moodle_extract s = none ↔
      searchPos pat1At s = none ∧ searchPos pat2At s = none
      ∧ searchBnd pat3At none s = none ∧ searchBnd patFBAt none s = none)
    ∧ (∀ m, moodle_extract s = some m →
        m.length = 8 ∧ m.all Char.isDigit = true)
    ∧ (∀ m, searchPos pat1At s = some m → moodle_extract s = some m)
    ∧ (∀ m, searchPos pat1At s = none → searchPos pat2At s = some m →
        moodle_extract s = some m)
    ∧ (∀ m, searchPos pat1At s = none → searchPos pat2At s = none →
        searchBnd pat3At none s = some m → moodle_extract s = some m)
    ∧ (∀ m, searchPos pat1At s = none → searchPos pat2At s = none →
        searchBnd pat3At none s = none → searchBnd patFBAt none s = some m →
        moodle_extract s = some m) := by
  refine ⟨⟨?_, ?_⟩, ?_, ?_, ?_, ?_, ?_⟩
  · intro h
    cases h1 : searchPos pat1At s with
    | some m => simp [moodle_extract, h1] at h
    | none =>
      cases h2 : searchPos pat2At s with
      | some m => simp [moodle_extract, h1, h2] at h
      | none =>
        cases h3 : searchBnd pat3At none s with
        | some m => simp [moodle_extract, h1, h2, h3] at h
        | none =>
          simp only [moodle_extract, h1, h2, h3] at h
          exact ⟨rfl, rfl, rfl, h⟩
  · rintro ⟨h1, h2, h3, h4⟩
    simp [moodle_extract, h1, h2, h3, h4]
  · intro m hm
    cases h1 : searchPos pat1At s with
    | some r =>
      simp only [moodle_extract, h1] at hm
      obtain ⟨l, hl⟩ := searchPos_some h1
      exact (Option.some.inj hm) ▸ pat1At_digits hl
    | none =>
      cases h2 : searchPos pat2At s with
      | some r =>
        simp only [moodle_extract, h1, h2] at hm
        obtain ⟨l, hl⟩ := searchPos_some h2
        exact (Option.some.inj hm) ▸ pat2At_digits hl
      | none =>
        cases h3 : searchBnd pat3At none s with
        | some r =>
          simp only [moodle_extract, h1, h2, h3] at hm
          obtain ⟨pr, l, hl⟩ := searchBnd_some h3
          exact (Option.some.inj hm) ▸ pat3At_digits hl
        | none =>
          simp only [moodle_extract, h1, h2, h3] at hm
          obtain ⟨pr, l, hl⟩ := searchBnd_some hm
          exact patFBAt_digits hl
  · intro m h1; simp [moodle_extract, h1]
  · intro m h1 h2; simp [moodle_extract, h1, h2]
  · intro m h1 h2 h3; simp [moodle_extract, h1, h2, h3]
  · intro m h1 h2 h3 h4; simp [moodle_extract, h1, h2, h3, h4]

/-- Witness for C7 at the concrete text 'ID NO: 22102003'. -/
theorem C7_moodle_witness :
    ("22102003".toList.length = 8
      ∧ "22102003".toList.all Char.isDigit = true) :=
  (C7_moodle "ID NO: 22102003".toList).2.1 "22102003".toList (by decide)

/-- C7: counterexample to the claim as stated.  On the text
'ID: 12345678 21234567' the code returns 12345678 (the `ID[:\s]*(\d{8})`
context pattern fires first and accepts a leading digit other than 2),
while the claim's first-substring-matching-2\d{7} rule selects
21234567. -/
theorem C7_counter :
    moodle_extract "ID: 12345678 21234567".toList = some "12345678".toList
    ∧ claimExtract "ID: 12345678 21234567".toList = some "21234567".toList
    ∧ "12345678".toList ≠ "21234567".toList := by
  refine ⟨by decide, by decide, by decide⟩

theorem maxByLen_none_iff : ∀ l : List (List Char), maxByLen l = none ↔ l = [] := by
  intro l
  cases l with
  | nil => simp [maxByLen]
  | cons x t =>
    simp only [maxByLen]
    constructor
    · intro h
      split at h
      · cases h
      · split at h <;> cases h
    · intro h
      simp at h

theorem maxByLen_mem : ∀ {l : List (List Char)} {n}, maxByLen l = some n → n ∈ l := by
  intro l
  induction l with
  | nil => intro n h; cases h
  | cons x t ih =>
    intro n h
    simp only [maxByLen] at h
    split at h
    · obtain rfl := Option.some.inj h
      exact List.mem_cons_self _ _
    · next y heq =>
      split at h
      · obtain rfl := Option.some.inj h
        exact List.mem_cons_of_mem _ (ih heq)
      · obtain rfl := Option.some.inj h
        exact List.mem_cons_self _ _

theorem maxByLen_ge : ∀ {l : List (List Char)} {n}, maxByLen l = some n →
    ∀ c ∈ l, c.length ≤ n.length := by
  intro l
  induction l with
  | nil => intro n _ c hc; cases hc
  | cons x t ih =>
    intro n h c hc
    simp only [maxByLen] at h
    split at h
    · next heq =>
      obtain rfl := Option.some.inj h
      rcases List.mem_cons.mp hc with rfl | hc2
      · exact le_refl _
      · exact absurd hc2 (by rw [(maxByLen_none_iff t).mp heq]; simp)
    · next y heq =>
      split at h
      · next hgt =>
        obtain rfl := Option.some.inj h
        rcases List.mem_cons.mp hc with rfl | hc2
        · exact le_of_lt hgt
        · exact ih heq c hc2
      · next hgt =>
        obtain rfl := Option.some.inj h
        rcases List.mem_cons.mp hc with rfl | hc2
        · exact le_refl _
        · exact le_trans (ih heq c hc2) (not_lt.mp hgt)

/-- C8 (amended): name extraction collects the regex matches of the two
name patterns over the space-joined OCR text, keeps those accepted by
`is_valid_name`, and returns a longest valid candidate (the first one on
ties): the result is `None` exactly when there is no valid candidate, and
any returned name is a valid candidate of maximal length.  OCR confidences
are never consulted. -/
theorem C8_name (ocr : List OCRItem) :
    (parse_name ocr = none ↔ candidatesOf (joinTexts ocr) = [])
    ∧ ∀ n, parse_name ocr = some n →
        n ∈ candidatesOf (joinTexts ocr)
        ∧ ∀ c ∈ candidatesOf (joinTexts ocr), c.length ≤ n.length := by
  refine ⟨maxByLen_none_iff _, fun n hn => ⟨maxByLen_mem hn, maxByLen_ge hn⟩⟩

/-- Witness for C8 at a concrete single-fragment OCR result. -/
theorem C8_name_witness :
    parse_name [⟨"JOHN MICHAEL SMITH".toList, 1⟩] = some "JOHN MICHAEL SMITH".toList
    ∧ "JOHN MICHAEL SMITH".toList
        ∈ candidatesOf (joinTexts [⟨"JOHN MICHAEL SMITH".toList, 1⟩]) :=
  ⟨by decide,
   ((C8_name [⟨"JOHN MICHAEL SMITH".toList, 1⟩]).2
     "JOHN MICHAEL SMITH".toList (by decide)).1⟩

/-- C8: counterexample to the claim as stated.  On OCR fragments
'JOHN SMITH' (confidence 1) and 'ALEXANDER HAMILTON' (confidence 0) the
code joins the fragments and returns the single merged candidate
'JOHN SMITH ALEXANDER HAMILTON', while the claim's
highest-confidence-then-longest rule over the fragments returns
'JOHN SMITH'. -/
theorem C8_counter :
    parse_name [⟨"JOHN SMITH".toList, 1⟩, ⟨"ALEXANDER HAMILTON".toList, 0⟩]
      = some "JOHN SMITH ALEXANDER HAMILTON".toList
    ∧ claimName [⟨"JOHN SMITH".toList, 1⟩, ⟨"ALEXANDER HAMILTON".toList, 0⟩]
      = some "JOHN SMITH".toList
    ∧ parse_name [⟨"JOHN SMITH".toList, 1⟩, ⟨"ALEXANDER HAMILTON".toList, 0⟩]
      ≠ claimName [⟨"JOHN SMITH".toList, 1⟩, ⟨"ALEXANDER HAMILTON".toList, 0⟩] := by
  refine ⟨by decide, by decide, by decide⟩

theorem firstSome_some {α β : Type} {f : α → Option β} :
    ∀ {l b}, firstSome f l = some b → ∃ a ∈ l, f a = some b := by
  intro l
  induction l with
  | nil => intro b h; cases h
  | cons a t ih =>
    intro b h
    simp only [firstSome] at h
    cases hf : f a with
    | some r =>
      rw [hf] at h
      exact ⟨a, List.mem_cons_self _ _, hf.trans (congrArg _ (Option.some.inj h))⟩
    | none =>
      rw [hf] at h
      obtain ⟨a2, ha2, hfa2⟩ := ih h
      exact ⟨a2, List.mem_cons_of_mem _ ha2, hfa2⟩

theorem normalize_department_mem (t : List Char) (d : String)
    (h : normalize_department t = some d) : d ∈ canonicalDepartments := by
  unfold normalize_department at h
  dsimp only at h
  split at h
  · next heq =>
    obtain ⟨kv, hkv, hf⟩ := firstSome_some heq
    split at hf
    · fin_cases hkv <;> (injection hf.trans h with h2) <;> (subst h2; decide)
    · cases hf
  · repeat' split at h
    all_goals first
      | (injection h with h2; subst h2; decide)
      | cases h

/-- C9: the department produced by the parsing loop is always `None` or
one of the six canonical uppercase department strings (the codomain of
`normalize_department`); no other string is ever returned. -/
theorem C9_department (t : List Char) (d : String)
    (h : parse_department t = some d) : d ∈ canonicalDepartments := by
  obtain ⟨k, hk, hfk⟩ := firstSome_some h
  split at hfk
  · exact normalize_department_mem _ _ hfk
  · cases hfk

/-- Witness for C9 at a concrete OCR text containing a department
keyword. -/
theorem C9_department_witness :
    "COMPUTER ENGINEERING" ∈ canonicalDepartments :=
  C9_department "STUDENT OF COMPUTER ENGINEERING".toList
    "COMPUTER ENGINEERING" (by decide)

/-- C10: with the shipped configuration (`ID_CARD_REGIONS['photo']` a
4-tuple), `extract_photo_region` returns `None` for every input image
(the string-keyed subscript raises `TypeError`, caught by the
`try/except`), and consequently `photo_extracted` is `False` for every
input. -/
theorem C10_photo (card_image : PyImage) :
    extract_photo_region card_image = none
    ∧ photo_extracted card_image = false :=
  ⟨rfl, rfl⟩

end Campus
